import Mathlib

/-!
Verification of the DriveIndex core (src/driveindex/drive_index.py) against its
natural-language specification.

Modelling conventions:
- Python strings are modelled as `List Char` (one element per Unicode code point).
- Python's stable `list.sort(key=...)` is modelled by `List.insertionSort`, which is
  also stable and therefore produces the same list for the same key relation.
- Library calls whose behaviour is fixed by external data tables
  (`unicodedata.normalize("NFC", ...)`, `str.lower`, `wcwidth.wcswidth`) are embedded
  restricted to the code points that occur in this development; on those code points
  the embedded functions agree exactly with the library functions.
- CPython floats in `human_readable_size` are embedded exactly: `float(size_bytes)`
  rounds the integer to 53 significant bits, ties to even (`floatOfNat`), and each
  subsequent division of a float by 1024.0 only shifts the exponent, so the float
  holds exactly `floatOfNat n / 1024^k`; `f"{x:.2f}"` is the round-half-to-even
  rendering of that exact value.  (Beyond 2^1024, `float(size_bytes)` raises
  OverflowError, so the faithful domain is n < 2^1024.)
- Filesystem effects are inputs: an `os.walk` traversal is a list of `WalkEntry`
  (each file name paired with the outcome of its `os.path.getsize` call), and the
  state of the persisted index file is a `FileState`.
-/

namespace DriveIndex

/-- Code-point-wise lexicographic comparison of strings, as Python string `<=`
used by `list.sort(key=...)`. -/
def lexLe : List Char → List Char → Bool
  | [], _ => true
  | _ :: _, [] => false
  | a :: as, b :: bs =>
    if a.toNat < b.toNat then true
    else if b.toNat < a.toNat then false
    else lexLe as bs

/-- Embeds Python `str.lower` on a single code point, restricted to ASCII and the
Latin-1 letter block (U+00C0..U+00DE except the multiplication sign U+00D7), which
covers every character used in this development; `str.lower` maps each of these
code points to itself plus 32, and fixes the rest. -/
def pyLowerChar (c : Char) : Char :=
  if 65 ≤ c.toNat ∧ c.toNat ≤ 90 then Char.ofNat (c.toNat + 32)
  else if 192 ≤ c.toNat ∧ c.toNat ≤ 222 ∧ c.toNat ≠ 215 then Char.ofNat (c.toNat + 32)
  else c

/-- Embeds Python `str.lower`: on the restricted alphabet it is the per-code-point map. -/
def pyLower (s : List Char) : List Char := s.map pyLowerChar

/-- Bool test that `needle` is a prefix of `haystack` (helper for substring search). -/
def startsWithL : List Char → List Char → Bool
  | [], _ => true
  | _ :: _, [] => false
  | a :: as, b :: bs => a == b && startsWithL as bs

/-- Embeds Python's substring operator `needle in haystack` on strings: true iff
`needle` occurs contiguously in `haystack` (the empty needle always occurs). -/
def isSub (needle : List Char) : List Char → Bool
  | [] => needle.isEmpty
  | b :: bs => startsWithL needle (b :: bs) || isSub needle bs

/-- Canonical composition table of `unicodedata.normalize("NFC", ...)` restricted to
the (base, combining-mark) pairs occurring in this development: combining acute
U+0301 and combining diaeresis U+0308 after Latin letters.  On these pairs Unicode
NFC composes exactly as listed; every other adjacent pair is left uncomposed. -/
def composePair (base mark : Char) : Option Char :=
  if mark = Char.ofNat 769 then
    if base = 'a' then some (Char.ofNat 225)
    else if base = 'e' then some (Char.ofNat 233)
    else if base = 'o' then some (Char.ofNat 243)
    else if base = 'A' then some (Char.ofNat 193)
    else if base = 'E' then some (Char.ofNat 201)
    else if base = 'O' then some (Char.ofNat 211)
    else none
  else if mark = Char.ofNat 776 then
    if base = 'a' then some (Char.ofNat 228)
    else if base = 'o' then some (Char.ofNat 246)
    else if base = 'u' then some (Char.ofNat 252)
    else none
  else none

/-- Worker for `normalize`: carries the current starter and composes it with the
next code point when the table allows, as Unicode canonical composition does. -/
def nfcGo (c : Char) : List Char → List Char
  | [] => [c]
  | c2 :: rest =>
    match composePair c c2 with
    | some cc => nfcGo cc rest
    | none => c :: nfcGo c2 rest

/-- Embeds `normalize` of drive_index.py: `unicodedata.normalize("NFC", s)`,
restricted to the composition pairs of `composePair`. -/
def normalize (s : List Char) : List Char :=
  match s with
  | [] => []
  | c :: rest => nfcGo c rest

/-- Embeds the `FileMeta` TypedDict: `{name: str, size: int}`. -/
structure FileMeta where
  name : List Char
  size : Nat
deriving DecidableEq

/-- Embeds the `DirectoryMeta` TypedDict: `{name: str, file_count: int}`. -/
structure DirectoryMeta where
  name : List Char
  file_count : Nat
deriving DecidableEq

/-- Embeds the `DirectoryInfo` TypedDict: `{path: str, directory: DirectoryMeta,
files: List[FileMeta]}`. -/
structure DirectoryInfo where
  path : List Char
  directory : DirectoryMeta
  files : List FileMeta
deriving DecidableEq

/-- The key relation of `matched.sort(key=lambda f: f["name"].lower())`
in `handle_search`: case-insensitive comparison of file names (no NFC step). -/
def fileKeyLe (a b : FileMeta) : Prop := lexLe (pyLower a.name) (pyLower b.name) = true

instance : DecidableRel fileKeyLe :=
  fun a b => inferInstanceAs (Decidable (lexLe (pyLower a.name) (pyLower b.name) = true))

/-- The key relation of `results.sort(key=lambda e: e["directory"]["name"].lower())`
in `handle_search`: case-insensitive comparison of directory names (no NFC step). -/
def dirKeyLe (a b : DirectoryInfo) : Prop :=
  lexLe (pyLower a.directory.name) (pyLower b.directory.name) = true

instance : DecidableRel dirKeyLe :=
  fun a b =>
    inferInstanceAs (Decidable (lexLe (pyLower a.directory.name) (pyLower b.directory.name) = true))

/-- Embeds the file-match test of `handle_search`:
`keyword.lower() in normalize(f["name"]).lower()`. -/
def fileMatches (keyword : List Char) (f : FileMeta) : Bool :=
  isSub (pyLower keyword) (pyLower (normalize f.name))

/-- Embeds one iteration of the `for entry in index` loop of `handle_search`.
Returns the entry as it stands after the iteration (the code rebinds
`entry["files"] = matched` in place on the loaded record) together with whether the
entry was appended to `results`.  The directory test is
`keyword in normalize(entry["directory"]["name"]).lower()` with the keyword used
as given. -/
def searchEntry (keyword : List Char) (e : DirectoryInfo) : DirectoryInfo × Bool :=
  let directory_name := pyLower (normalize e.directory.name)
  if isSub keyword directory_name then (e, true)
  else
    let matched := e.files.filter (fileMatches keyword)
    if matched.isEmpty then (e, false)
    else ({ e with files := List.insertionSort fileKeyLe matched }, true)

/-- The `results` list of `handle_search` before the final sort: the entries (in
their post-iteration state) that the loop appended. -/
def searchResultsUnsorted (index : List DirectoryInfo) (keyword : List Char) :
    List DirectoryInfo :=
  index.filterMap (fun e =>
    if (searchEntry keyword e).2 then some (searchEntry keyword e).1 else none)

/-- The value of `results` in `handle_search` after
`results.sort(key=lambda e: e["directory"]["name"].lower())` (a stable sort,
modelled by the stable `insertionSort`). -/
def handle_search_results (index : List DirectoryInfo) (keyword : List Char) :
    List DirectoryInfo :=
  List.insertionSort dirKeyLe (searchResultsUnsorted index keyword)

/-- The state of the loaded `index` list after `handle_search` finishes: each entry
as left by its loop iteration (`entry["files"] = matched` mutates the loaded
record in place; entries are never removed from or added to the loaded list). -/
def indexAfterSearch (index : List DirectoryInfo) (keyword : List Char) :
    List DirectoryInfo :=
  index.map (fun e => (searchEntry keyword e).1)

/-- Embeds the module constant `IGNORED_FILES` (a set used only for membership). -/
def IGNORED_FILES : List (List Char) :=
  [((".DS_Store").data), ((".com.apple.timemachine.donotpresent").data)]

/-- One `os.walk` triple as read by `handle_scan`: the directory path and, for each
entry of `filenames`, the outcome of `os.path.getsize` on it (`none` = the lookup
raised `OSError`).  `dirnames` pruning only affects which triples the walk yields,
which is this input, so it needs no separate field. -/
structure WalkEntry where
  dirpath : List Char
  filenames : List (List Char × Option Nat)
deriving DecidableEq

/-- Embeds `os.path.basename`: the part of the path after the last separator. -/
def basename (p : List Char) : List Char :=
  (p.reverse.takeWhile (fun c => c != '/')).reverse

/-- Embeds the body of the `for dirpath, dirnames, filenames in os.walk(...)` loop
of `handle_scan`: filter `IGNORED_FILES`, skip the directory when nothing is left,
otherwise build a record whose `files` keeps exactly the valid filenames whose size
lookup succeeded (paths from `os.walk` of an absolute root are absolute, so
`os.path.abspath` is the identity on them). -/
def scanDir (e : WalkEntry) : Option DirectoryInfo :=
  let valid_filenames := e.filenames.filter (fun f => !(IGNORED_FILES.contains f.1))
  if valid_filenames.isEmpty then none
  else
    some
      { path := e.dirpath
        directory := { name := basename e.dirpath, file_count := valid_filenames.length }
        files := valid_filenames.filterMap
          (fun f => f.2.map (fun sz => { name := f.1, size := sz })) }

/-- The records appended by the walk loop of `handle_scan`, in traversal order. -/
def handle_scan_records (walk : List WalkEntry) : List DirectoryInfo :=
  walk.filterMap scanDir

/-- The state of the persisted index file as far as the loading code observes it:
missing, existing but not valid JSON (`json.JSONDecodeError`), existing but
unreadable (any other exception), or well formed with the given records. -/
inductive FileState where
  | absent
  | malformed
  | readErr
  | wellFormed (records : List DirectoryInfo)
deriving DecidableEq

/-- Embeds the index-loading prelude of `handle_scan`: a missing file is skipped
(`os.path.exists` guard), `json.JSONDecodeError` is logged and the scan continues
with an empty list, any other exception exits fatally, and well-formed content is
taken as the existing records. -/
def scanLoad : FileState → Except Unit (List DirectoryInfo)
  | FileState.absent => Except.ok []
  | FileState.malformed => Except.ok []
  | FileState.readErr => Except.error ()
  | FileState.wellFormed records => Except.ok records

/-- Embeds the index-loading prelude of `handle_search`: `open` + `json.load`
inside `try`, with every exception (missing file included) caught by
`except Exception` and turned into `sys.exit(1)`. -/
def searchLoad : FileState → Except Unit (List DirectoryInfo)
  | FileState.wellFormed records => Except.ok records
  | _ => Except.error ()

/-- The list `handle_scan` passes to `json.dump`: the loaded records followed by
the records appended by the walk loop (`none` when loading already exited). -/
def handle_scan_merged (st : FileState) (walk : List WalkEntry) :
    Option (List DirectoryInfo) :=
  match scanLoad st with
  | Except.error _ => none
  | Except.ok existing => some (existing ++ handle_scan_records walk)

/-- An indentation run of `n` spaces. -/
def ind (n : Nat) : List Char := List.replicate n ' '

/-- Decimal digits of a natural number, as Python renders a non-negative int. -/
def jsonNat (n : Nat) : List Char := Nat.toDigits 10 n

/-- Lowercase hexadecimal digit, as in Python's `\uXXXX` escapes. -/
def hexDigit (n : Nat) : Char :=
  if n < 10 then Char.ofNat (48 + n) else Char.ofNat (87 + n)

/-- Embeds the string escaping of `json.dump(..., ensure_ascii=False)`: only the
quote, the backslash and the C0 control characters are escaped (with the short
forms for backspace, tab, newline, form feed and carriage return); every other
code point, non-ASCII included, is written literally. -/
def escChar (c : Char) : List Char :=
  if c = '"' then ['\\', '"']
  else if c = '\\' then ['\\', '\\']
  else if c = Char.ofNat 8 then ['\\', 'b']
  else if c = Char.ofNat 9 then ['\\', 't']
  else if c = Char.ofNat 10 then ['\\', 'n']
  else if c = Char.ofNat 12 then ['\\', 'f']
  else if c = Char.ofNat 13 then ['\\', 'r']
  else if c.toNat < 32 then
    ['\\', 'u', '0', '0', hexDigit (c.toNat / 16), hexDigit (c.toNat % 16)]
  else [c]

/-- A JSON string literal as written by `json.dump(..., ensure_ascii=False)`. -/
def jsonString (s : List Char) : List Char := '"' :: (s.flatMap escChar ++ ['"'])

/-- A serialized object key followed by the `": "` key separator that
`json.dump` uses when an indent is given. -/
def jsonKey (k : List Char) : List Char := jsonString k ++ (':' :: ' ' :: [])

/-- The item separator `json.dump(..., indent=4)` writes between container items:
a comma, a newline and the indentation of the next item. -/
def sepAt (lvl : Nat) : List Char := ',' :: '\n' :: ind lvl

/-- A non-empty JSON object at `indent=4`, opened at column `lvl`: members on
their own lines indented `lvl + 4`, closing brace back at `lvl`.  (The records
serialized here always have all three keys, so the empty-object form is not
needed.) -/
def dumpObj (lvl : Nat) (fields : List (List Char)) : List Char :=
  ('{' :: '\n' :: ind (lvl + 4)) ++ List.intercalate (sepAt (lvl + 4)) fields ++
    ('\n' :: ind lvl) ++ ('}' :: [])

/-- A JSON array at `indent=4`, opened at column `lvl`; `json.dump` collapses an
empty array to `[]`. -/
def dumpList (lvl : Nat) (items : List (List Char)) : List Char :=
  if items.isEmpty then ('[' :: ']' :: [])
  else
    ('[' :: '\n' :: ind (lvl + 4)) ++ List.intercalate (sepAt (lvl + 4)) items ++
      ('\n' :: ind lvl) ++ (']' :: [])

/-- Serialization of one `FileMeta`, keys in insertion order `name`, `size`. -/
def dumpFile (lvl : Nat) (f : FileMeta) : List Char :=
  dumpObj lvl
    [jsonKey (("name").data) ++ jsonString f.name,
     jsonKey (("size").data) ++ jsonNat f.size]

/-- Serialization of one `DirectoryInfo`, keys in insertion order `path`,
`directory`, `files`. -/
def dumpDir (lvl : Nat) (d : DirectoryInfo) : List Char :=
  dumpObj lvl
    [jsonKey (("path").data) ++ jsonString d.path,
     jsonKey (("directory").data) ++
       dumpObj (lvl + 4)
         [jsonKey (("name").data) ++ jsonString d.directory.name,
          jsonKey (("file_count").data) ++ jsonNat d.directory.file_count],
     jsonKey (("files").data) ++ dumpList (lvl + 4) (d.files.map (dumpFile (lvl + 8)))]

/-- Embeds `json.dump(results, fh, indent=4, ensure_ascii=False)`: the text
written to the output file (UTF-8 encoding of exactly this code-point sequence). -/
def pyJsonDump (records : List DirectoryInfo) : List Char :=
  dumpList 0 (records.map (dumpDir 4))

/-- The full text `handle_scan` writes to the output file, when it gets there. -/
def handle_scan_savedText (st : FileState) (walk : List WalkEntry) :
    Option (List Char) :=
  (handle_scan_merged st walk).map pyJsonDump

/-- Embeds `wcwidth.wcwidth` restricted to printable characters: wide (two-column)
for the East-Asian wide and fullwidth blocks, one column otherwise. -/
def wcwidthChar (c : Char) : Nat :=
  if (4352 ≤ c.toNat ∧ c.toNat ≤ 4447) ∨
     (11904 ≤ c.toNat ∧ c.toNat ≤ 42191) ∨
     (43360 ≤ c.toNat ∧ c.toNat ≤ 43388) ∨
     (44032 ≤ c.toNat ∧ c.toNat ≤ 55203) ∨
     (63744 ≤ c.toNat ∧ c.toNat ≤ 64255) ∨
     (65040 ≤ c.toNat ∧ c.toNat ≤ 65049) ∨
     (65072 ≤ c.toNat ∧ c.toNat ≤ 65131) ∨
     (65281 ≤ c.toNat ∧ c.toNat ≤ 65376) ∨
     (65504 ≤ c.toNat ∧ c.toNat ≤ 65510) ∨
     (131072 ≤ c.toNat ∧ c.toNat ≤ 196605) then 2
  else 1

/-- Embeds `wcwidth.wcswidth` on printable strings: the sum of the column widths. -/
def wcswidth (s : List Char) : Nat := (s.map wcwidthChar).sum

/-- A run of `n` padding spaces (`" " * n`; like Python, `n` never goes below zero
because Nat subtraction truncates at zero exactly as string repetition does). -/
def spacesL (n : Nat) : List Char := List.replicate n ' '

/-- The truncation marker `ellipsis = "..."` of `pad_to_width`. -/
def ellipsis : List Char := ['.', '.', '.']

/-- Embeds the `for ch in text` truncation loop of `pad_to_width`: returns the
accumulated `truncated` prefix and the final `current_width`, stopping before the
first character that together with the marker would exceed the target width. -/
def truncLoop (width : Nat) : List Char → Nat → List Char × Nat
  | [], cw => ([], cw)
  | c :: rest, cw =>
    if cw + wcwidthChar c + wcswidth ellipsis > width then ([], cw)
    else
      let p := truncLoop width rest (cw + wcwidthChar c)
      (c :: p.1, p.2)

/-- Embeds `pad_to_width` of drive_index.py. -/
def pad_to_width (text : List Char) (width : Nat) : List Char :=
  let text_width := wcswidth text
  if text_width ≤ width then text ++ spacesL (width - text_width)
  else
    let p := truncLoop width text 0
    p.1 ++ ellipsis ++ spacesL (width - (p.2 + wcswidth ellipsis))

/-- Example record for the C1 counterexample: an NFC-composed stored name. -/
def exC1 : DirectoryInfo :=
  { path := (("/Volumes/Ext/music").data)
    directory := { name := 'c' :: 'a' :: 'f' :: Char.ofNat 233 :: [], file_count := 1 }
    files := [{ name := (("song.mp3").data), size := 1 }] }

/-- Keyword for the C1 counterexample: the same visual name in decomposed form
(`e` followed by combining acute U+0301). -/
def kwC1 : List Char := 'c' :: 'a' :: 'f' :: 'e' :: Char.ofNat 769 :: []

/-- Example record for the C2 failing input. -/
def exC2 : DirectoryInfo :=
  { path := (("/Volumes/Ext/docs").data)
    directory := { name := (("docs").data), file_count := 2 }
    files := [{ name := (("a.txt").data), size := 10 }, { name := (("b.md").data), size := 5 }] }

/-- Example walk entry for the C5 witness: one ignored name, one readable file,
one file whose size lookup fails. -/
def exWalkC5 : WalkEntry :=
  { dirpath := (("/Volumes/Ext/docs").data)
    filenames :=
      [((("a.txt").data), some 10), (((".DS_Store").data), some 1), ((("bad").data), none)] }

/-- The record `scanDir` produces from `exWalkC5`. -/
def recC5 : DirectoryInfo :=
  { path := (("/Volumes/Ext/docs").data)
    directory := { name := (("docs").data), file_count := 2 }
    files := [{ name := (("a.txt").data), size := 10 }] }

/-- Walk entry with only an ignored filename, for the no-record part of C5. -/
def exWalkC5empty : WalkEntry :=
  { dirpath := (("/Volumes/Ext/empty").data)
    filenames := [(((".DS_Store").data), some 1)] }

/-- Example record for the C7 witness: a one-code-point non-ASCII directory name. -/
def exC7 : DirectoryInfo :=
  { path := (("p").data)
    directory := { name := Char.ofNat 233 :: [], file_count := 1 }
    files := [] }

/-- The exact text `json.dump([exC7], fh, indent=4, ensure_ascii=False)` writes:
4-space indentation and the non-ASCII name written literally. -/
def expectedDumpC7 : List Char :=
  ('[' :: '\n' :: []) ++ ind 4 ++ ('{' :: '\n' :: []) ++ ind 8 ++
    (("\"path\": \"p\",\n").data) ++ ind 8 ++
    (("\"directory\": ").data) ++ ('{' :: '\n' :: []) ++ ind 12 ++
    (("\"name\": \"é\",\n").data) ++ ind 12 ++
    (("\"file_count\": 1\n").data) ++ ind 8 ++
    ('}' :: ',' :: '\n' :: []) ++ ind 8 ++
    (("\"files\": []\n").data) ++ ind 4 ++
    ('}' :: '\n' :: ']' :: [])

/-- Example record for the C9 counterexample: a capitalized stored name. -/
def exC9 : DirectoryInfo :=
  { path := (("/Volumes/Ext/Music").data)
    directory := { name := (("Music").data), file_count := 1 }
    files := [{ name := (("song.mp3").data), size := 1 }] }

/-- Example record for the C9 witness. -/
def exC9b : DirectoryInfo :=
  { path := (("/Volumes/Ext/docs").data)
    directory := { name := (("docs").data), file_count := 1 }
    files := [{ name := (("a.txt").data), size := 10 }] }

/-- Example records for the C8 and C10 witnesses. -/
def exC8a : DirectoryInfo :=
  { path := (("/Volumes/Ext/Beta").data)
    directory := { name := (("Beta").data), file_count := 1 }
    files := [{ name := (("beta.txt").data), size := 1 }] }

/-- Second example record for the C8 and C10 witnesses. -/
def exC8b : DirectoryInfo :=
  { path := (("/Volumes/Ext/alpha").data)
    directory := { name := (("alpha").data), file_count := 2 }
    files := [{ name := (("B.txt").data), size := 2 }, { name := (("a.txt").data), size := 3 }] }

/-- The record the file-name rule produces from `exC8b` for keyword `txt`:
both files match, sorted case-insensitively (`a.txt` before `B.txt`). -/
def recC8 : DirectoryInfo :=
  { path := (("/Volumes/Ext/alpha").data)
    directory := { name := (("alpha").data), file_count := 2 }
    files := [{ name := (("a.txt").data), size := 3 }, { name := (("B.txt").data), size := 2 }] }

theorem lexLe_total : ∀ a b : List Char, lexLe a b = true ∨ lexLe b a = true := by
  intro a
  induction a with
  | nil => intro b; left; rfl
  | cons x xs ih =>
    intro b
    match b with
    | [] => right; rfl
    | y :: ys =>
      simp only [lexLe]
      by_cases h1 : x.toNat < y.toNat
      · left; simp [h1]
      · by_cases h2 : y.toNat < x.toNat
        · right; simp [h2]
        · rcases ih ys with h | h
          · left; simp [h1, h2, h]
          · right; simp [h1, h2, h]

theorem lexLe_trans :
    ∀ a b c : List Char, lexLe a b = true → lexLe b c = true → lexLe a c = true := by
  intro a
  induction a with
  | nil => intro b c _ _; rfl
  | cons x xs ih =>
    intro b c h h'
    match b, c with
    | [], _ => simp [lexLe] at h
    | _ :: _, [] => simp [lexLe] at h'
    | y :: ys, z :: zs =>
      simp only [lexLe] at h h' ⊢
      by_cases h1 : x.toNat < y.toNat
      · by_cases h2 : y.toNat < z.toNat
        · simp [show x.toNat < z.toNat by omega]
        · by_cases h3 : z.toNat < y.toNat
          · simp [h2, h3] at h'
          · simp [show x.toNat < z.toNat by omega]
      · by_cases h4 : y.toNat < x.toNat
        · simp [h1, h4] at h
        · simp only [h1, if_false, h4, if_false] at h
          by_cases h2 : y.toNat < z.toNat
          · simp [show x.toNat < z.toNat by omega]
          · by_cases h3 : z.toNat < y.toNat
            · simp [h2, h3] at h'
            · simp only [h2, if_false, h3, if_false] at h'
              simp [show ¬ x.toNat < z.toNat by omega, show ¬ z.toNat < x.toNat by omega,
                ih ys zs h h']

theorem isSub_nil : ∀ l : List Char, isSub [] l = true := by
  intro l
  cases l with
  | nil => rfl
  | cons b bs => simp [isSub, startsWithL]

theorem searchEntry_cases (kw : List Char) (e : DirectoryInfo) :
    (isSub kw (pyLower (normalize e.directory.name)) = true ∧ searchEntry kw e = (e, true)) ∨
    (isSub kw (pyLower (normalize e.directory.name)) = false ∧
      e.files.filter (fileMatches kw) = [] ∧ searchEntry kw e = (e, false)) ∨
    (isSub kw (pyLower (normalize e.directory.name)) = false ∧
      e.files.filter (fileMatches kw) ≠ [] ∧
      searchEntry kw e =
        ({ e with files := List.insertionSort fileKeyLe (e.files.filter (fileMatches kw)) },
          true)) := by
  cases hd : isSub kw (pyLower (normalize e.directory.name))
  · cases hm : (e.files.filter (fileMatches kw)).isEmpty
    · right; right
      refine ⟨rfl, by simpa [List.isEmpty_iff] using hm, ?_⟩
      simp [searchEntry, hd, hm]
    · right; left
      refine ⟨rfl, by simpa [List.isEmpty_iff] using hm, ?_⟩
      simp [searchEntry, hd, hm]
  · left
    exact ⟨rfl, by simp [searchEntry, hd]⟩

theorem mem_searchResultsUnsorted {index : List DirectoryInfo} {kw : List Char}
    {r : DirectoryInfo} :
    r ∈ searchResultsUnsorted index kw ↔
      ∃ e ∈ index, (searchEntry kw e).2 = true ∧ (searchEntry kw e).1 = r := by
  unfold searchResultsUnsorted
  rw [List.mem_filterMap]
  constructor
  · rintro ⟨e, he, hf⟩
    by_cases hb : (searchEntry kw e).2 = true
    · rw [if_pos hb] at hf
      exact ⟨e, he, hb, Option.some.inj hf⟩
    · rw [if_neg hb] at hf
      exact absurd hf (by simp)
  · rintro ⟨e, he, hb, hr⟩
    exact ⟨e, he, by rw [if_pos hb, hr]⟩

theorem searchResultsUnsorted_eq (index : List DirectoryInfo) (kw : List Char) :
    searchResultsUnsorted index kw =
      (index.filter (fun e => (searchEntry kw e).2)).map (fun e => (searchEntry kw e).1) := by
  induction index with
  | nil => rfl
  | cons e es ih =>
    cases hb : (searchEntry kw e).2
    · simpa [searchResultsUnsorted, List.filterMap_cons, List.filter_cons, hb] using ih
    · simpa [searchResultsUnsorted, List.filterMap_cons, List.filter_cons, hb] using ih

theorem mem_handle_search_results {index : List DirectoryInfo} {kw : List Char}
    {r : DirectoryInfo} :
    r ∈ handle_search_results index kw ↔ r ∈ searchResultsUnsorted index kw :=
  (List.perm_insertionSort dirKeyLe (searchResultsUnsorted index kw)).mem_iff

theorem searchEntry_nil_kw (e : DirectoryInfo) : searchEntry [] e = (e, true) := by
  simp [searchEntry, isSub_nil]

theorem searchResultsUnsorted_nil_kw (index : List DirectoryInfo) :
    searchResultsUnsorted index [] = index := by
  induction index with
  | nil => rfl
  | cons e es ih =>
    have hstep : searchResultsUnsorted (e :: es) [] = e :: searchResultsUnsorted es [] := by
      simp [searchResultsUnsorted, List.filterMap_cons, searchEntry_nil_kw]
    rw [hstep, ih]

theorem scanDir_eq_some {e : WalkEntry} {r : DirectoryInfo} (h : scanDir e = some r) :
    r.directory.file_count =
      (e.filenames.filter (fun f => !(IGNORED_FILES.contains f.1))).length ∧
    1 ≤ r.directory.file_count ∧
    r.files = (e.filenames.filter (fun f => !(IGNORED_FILES.contains f.1))).filterMap
      (fun f => f.2.map (fun sz => { name := f.1, size := sz })) := by
  simp only [scanDir] at h
  by_cases hv : (e.filenames.filter (fun f => !(IGNORED_FILES.contains f.1))).isEmpty = true
  · rw [if_pos hv] at h
    exact Option.noConfusion h
  · rw [if_neg hv] at h
    have hne : e.filenames.filter (fun f => !(IGNORED_FILES.contains f.1)) ≠ [] := by
      simpa [List.isEmpty_iff] using hv
    have h2 := Option.some.inj h
    subst h2
    exact ⟨rfl, List.length_pos.mpr hne, rfl⟩

theorem scanDir_eq_none {e : WalkEntry}
    (h : e.filenames.filter (fun f => !(IGNORED_FILES.contains f.1)) = []) :
    scanDir e = none := by
  simp only [scanDir]
  rw [h]
  rfl

theorem wcswidth_append (a b : List Char) : wcswidth (a ++ b) = wcswidth a + wcswidth b := by
  simp [wcswidth]

theorem wcswidth_spacesL (n : Nat) : wcswidth (spacesL n) = n := by
  simp [wcswidth, spacesL, List.map_replicate, List.sum_replicate, wcwidthChar]

theorem wcswidth_ellipsis : wcswidth ellipsis = 3 := rfl

theorem wcswidth_cons (c : Char) (s : List Char) :
    wcswidth (c :: s) = wcwidthChar c + wcswidth s := by
  simp [wcswidth]

theorem truncLoop_spec (width : Nat) :
    ∀ (text : List Char) (cw : Nat), cw + 3 ≤ width →
      (truncLoop width text cw).1 <+: text ∧
      (truncLoop width text cw).2 = cw + wcswidth (truncLoop width text cw).1 ∧
      (truncLoop width text cw).2 + 3 ≤ width := by
  intro text
  induction text with
  | nil =>
    intro cw h
    exact ⟨List.nil_prefix, by simp [truncLoop, wcswidth], by simpa [truncLoop] using h⟩
  | cons c rest ih =>
    intro cw h
    by_cases hc : cw + wcwidthChar c + wcswidth ellipsis > width
    · simp only [truncLoop, if_pos hc]
      exact ⟨List.nil_prefix, by simp [wcswidth], h⟩
    · simp only [truncLoop, if_neg hc]
      have hcw : cw + wcwidthChar c + 3 ≤ width := by
        rw [wcswidth_ellipsis] at hc; omega
      obtain ⟨h1, h2, h3⟩ := ih (cw + wcwidthChar c) hcw
      refine ⟨?_, ?_, h3⟩
      · exact ⟨h1.choose, by rw [List.cons_append, h1.choose_spec]⟩
      · rw [wcswidth_cons, h2]; omega

/-- C1 (counterexample): the claim says the keyword itself is NFC-normalized and
lowercased before the substring test.  For the stored NFC name `café` and the
keyword `café` in decomposed form, the NFC-lowered keyword equals (hence occurs
in) the NFC-lowered directory name, so the claim demands a match; the code uses
the keyword as given in the directory test and un-normalized in the file test,
and returns no result. -/
theorem search_keyword_not_normalized :
    pyLower (normalize kwC1) = pyLower (normalize exC1.directory.name) ∧
    isSub (pyLower (normalize kwC1)) (pyLower (normalize exC1.directory.name)) = true ∧
    handle_search_results [exC1] kwC1 = [] := by decide

/-- C1 (amended): directory names and file names are NFC-normalized and lowercased
before the substring test, but the keyword is not: it is used exactly as given
against the directory name, and lowercased (without NFC normalization) against
file names.  A record matches precisely under that asymmetric rule. -/
theorem search_match_rule_spec : ∀ (keyword : List Char) (e : DirectoryInfo),
    (searchEntry keyword e).2 = true ↔
      (isSub keyword (pyLower (normalize e.directory.name)) = true ∨
        ∃ f ∈ e.files, isSub (pyLower keyword) (pyLower (normalize f.name)) = true) := by
  intro kw e
  rcases searchEntry_cases kw e with ⟨hd, hse⟩ | ⟨hd, hm, hse⟩ | ⟨hd, hm, hse⟩
  · rw [hse]
    simp [hd]
  · rw [hse]
    simp only [hd]
    constructor
    · intro h
      exact absurd h (by simp)
    · rintro (h | ⟨f, hf, hmatch⟩)
      · exact absurd h (by simp)
      · have hmem : f ∈ e.files.filter (fileMatches kw) :=
          List.mem_filter.mpr ⟨hf, by simpa [fileMatches] using hmatch⟩
        rw [hm] at hmem
        exact absurd hmem (List.not_mem_nil f)
  · rw [hse]
    constructor
    · intro _
      right
      obtain ⟨f, hf⟩ := List.exists_mem_of_ne_nil _ hm
      have hmf := List.mem_filter.mp hf
      exact ⟨f, hmf.1, by simpa [fileMatches] using hmf.2⟩
    · intro _
      rfl

/-- C2: evaluation of the code at the failing input.  Searching a loaded index
holding one `docs` record (2 files) for the keyword `a.t` matches by file name
only; afterwards the loaded record itself holds just the filtered file list
(`entry["files"] = matched` replaced it in place), so the caller's loaded index
is no longer what it was. -/
theorem search_mutates_loaded_index :
    indexAfterSearch [exC2] (("a.t").data) =
      [{ exC2 with files := [{ name := (("a.txt").data), size := 10 }] }] ∧
    indexAfterSearch [exC2] (("a.t").data) ≠ [exC2] := by decide

/-- C3 (counterexample): the claim says the result's display width always equals
the target width.  For `pad_to_width("abcd", 2)` the truncation loop keeps no
character, yet the marker `...` is still appended and negative-length padding is
empty, so the result is `...` with display width 3, not 2. -/
theorem pad_to_width_narrow_counterexample :
    pad_to_width (("abcd").data) 2 = ellipsis ∧
    wcswidth (pad_to_width (("abcd").data) 2) ≠ 2 := by decide

/-- C3 (amended): for every target width of at least the marker width 3, the
result's display width equals the target exactly; a string that fits is
right-padded with spaces, and an over-wide string is cut to a character
prefix which together with the marker fits the target, followed by the marker
and space padding.  (For smaller targets the truncation branch overflows, as the
counterexample shows.) -/
theorem pad_to_width_spec (text : List Char) (width : Nat) (h : 3 ≤ width) :
    wcswidth (pad_to_width text width) = width ∧
    (wcswidth text ≤ width →
      pad_to_width text width = text ++ spacesL (width - wcswidth text)) ∧
    (width < wcswidth text → ∃ t, t <+: text ∧ wcswidth t + 3 ≤ width ∧
      pad_to_width text width = t ++ ellipsis ++ spacesL (width - (wcswidth t + 3))) := by
  by_cases hw : wcswidth text ≤ width
  · refine ⟨?_, fun _ => ?_, fun hc => absurd hc (by omega)⟩
    · simp only [pad_to_width, if_pos hw]
      rw [wcswidth_append, wcswidth_spacesL]
      omega
    · simp only [pad_to_width, if_pos hw]
  · obtain ⟨h1, h2, h3⟩ := truncLoop_spec width text 0 (by omega)
    refine ⟨?_, fun hc => absurd hc hw, fun _ => ⟨(truncLoop width text 0).1, h1, ?_, ?_⟩⟩
    · simp only [pad_to_width, if_neg hw]
      rw [wcswidth_append, wcswidth_append, wcswidth_ellipsis, wcswidth_spacesL]
      omega
    · omega
    · simp only [pad_to_width, if_neg hw, wcswidth_ellipsis, h2, Nat.zero_add]

/-- C3 (witness): the amended theorem applied at `"abc"` and width 5, matching the
spec's example output `"abc  "`. -/
theorem pad_to_width_spec_witness :
    wcswidth (pad_to_width (("abc").data) 5) = 5 ∧
    pad_to_width (("abc").data) 5 = (("abc  ").data) := by
  refine ⟨(pad_to_width_spec (("abc").data) 5 (by decide)).1, ?_⟩
  have h := (pad_to_width_spec (("abc").data) 5 (by decide)).2.1 (by decide)
  rw [h]
  decide

/-- C5: every emitted directory record counts exactly the non-ignored filenames of
its walk entry in `file_count` (so `file_count` is at least 1, is computed from the
name filter alone and is not decremented by size-lookup failures, which only drop
the affected file from `files`); a walk entry with no non-ignored filenames emits
no record at all. -/
theorem scan_file_count_spec : ∀ walk : List WalkEntry,
    (∀ r ∈ handle_scan_records walk, ∃ e ∈ walk,
      scanDir e = some r ∧
      r.directory.file_count =
        (e.filenames.filter (fun f => !(IGNORED_FILES.contains f.1))).length ∧
      1 ≤ r.directory.file_count ∧
      r.files = (e.filenames.filter (fun f => !(IGNORED_FILES.contains f.1))).filterMap
        (fun f => f.2.map (fun sz => { name := f.1, size := sz }))) ∧
    (∀ e : WalkEntry, e.filenames.filter (fun f => !(IGNORED_FILES.contains f.1)) = [] →
      scanDir e = none) := by
  intro walk
  refine ⟨?_, fun e he => scanDir_eq_none he⟩
  intro r hr
  obtain ⟨e, he, hse⟩ := List.mem_filterMap.mp hr
  obtain ⟨h1, h2, h3⟩ := scanDir_eq_some hse
  exact ⟨e, he, hse, h1, h2, h3⟩

/-- C5 (witness): the theorem applied to a walk entry holding one readable file,
one ignored name and one file whose size lookup fails (file_count 2, one listed
file), and to an entry holding only an ignored name (no record). -/
theorem scan_file_count_spec_witness :
    (∃ e ∈ [exWalkC5],
      scanDir e = some recC5 ∧
      recC5.directory.file_count =
        (e.filenames.filter (fun f => !(IGNORED_FILES.contains f.1))).length ∧
      1 ≤ recC5.directory.file_count ∧
      recC5.files = (e.filenames.filter (fun f => !(IGNORED_FILES.contains f.1))).filterMap
        (fun f => f.2.map (fun sz => { name := f.1, size := sz }))) ∧
    scanDir exWalkC5empty = none := by
  refine ⟨(scan_file_count_spec [exWalkC5]).1 recC5 (by decide), ?_⟩
  exact (scan_file_count_spec []).2 exWalkC5empty (by decide)

/-- C6 (counterexample): the claim says a missing index file yields an empty
record sequence and is not an error on either entry point; on the search path the
code's `open` raises inside the catch-all `try` and the program exits fatally, so
loading a missing file there is an error, not an empty sequence. -/
theorem search_load_absent_counterexample :
    searchLoad FileState.absent = Except.error () ∧
    searchLoad FileState.absent ≠ Except.ok [] := by
  refine ⟨rfl, fun h => Except.noConfusion h⟩

/-- C6 (amended): on the scan-merge path a missing index file and a malformed one
are both recovered as the empty sequence (any other read failure is fatal), while
on the search path every load failure — missing file and malformed content alike —
is fatal, with well-formed content returned unchanged on both paths. -/
theorem load_per_entry_point_spec :
    scanLoad FileState.absent = Except.ok [] ∧
    scanLoad FileState.malformed = Except.ok [] ∧
    scanLoad FileState.readErr = Except.error () ∧
    (∀ records, scanLoad (FileState.wellFormed records) = Except.ok records) ∧
    searchLoad FileState.absent = Except.error () ∧
    searchLoad FileState.malformed = Except.error () ∧
    (∀ records, searchLoad (FileState.wellFormed records) = Except.ok records) :=
  ⟨rfl, rfl, rfl, fun _ => rfl, rfl, rfl, fun _ => rfl⟩

/-- C7: with a well-formed existing index, `handle_scan` writes back exactly the
loaded records followed by the newly scanned records (pure append, so duplicate
paths stay as separate entries), serialized with `json.dump(..., indent=4,
ensure_ascii=False)`: every code point at or above U+0080 is written literally,
and the concrete one-record example shows the 4-space indentation. -/
theorem scan_merge_save_spec : ∀ (existing : List DirectoryInfo) (walk : List WalkEntry),
    handle_scan_merged (FileState.wellFormed existing) walk =
      some (existing ++ handle_scan_records walk) ∧
    handle_scan_savedText (FileState.wellFormed existing) walk =
      some (pyJsonDump (existing ++ handle_scan_records walk)) ∧
    (∀ c : Char, 128 ≤ c.toNat → escChar c = [c]) ∧
    pyJsonDump [exC7] = expectedDumpC7 := by
  intro existing walk
  refine ⟨rfl, rfl, ?_, by decide⟩
  intro c hc
  have hne : ∀ d : Char, d.toNat < 128 → c ≠ d := by
    intro d hd he
    rw [he] at hc
    omega
  simp only [escChar]
  rw [if_neg (hne '"' (by decide)), if_neg (hne '\\' (by decide)),
    if_neg (hne (Char.ofNat 8) (by decide)), if_neg (hne (Char.ofNat 9) (by decide)),
    if_neg (hne (Char.ofNat 10) (by decide)), if_neg (hne (Char.ofNat 12) (by decide)),
    if_neg (hne (Char.ofNat 13) (by decide)), if_neg (by omega)]

/-- C7 (witness): the theorem applied to a concrete well-formed existing index and
an empty walk, and the no-escape fact applied at the non-ASCII code point U+00E9. -/
theorem scan_merge_save_spec_witness :
    handle_scan_merged (FileState.wellFormed [exC7]) [] =
      some ([exC7] ++ handle_scan_records []) ∧
    escChar (Char.ofNat 233) = [Char.ofNat 233] := by
  refine ⟨(scan_merge_save_spec [exC7] []).1, ?_⟩
  exact (scan_merge_save_spec [] []).2.2.1 (Char.ofNat 233) (by decide)

theorem indexAfterSearch_nil_kw (index : List DirectoryInfo) :
    indexAfterSearch index [] = index := by
  induction index with
  | nil => rfl
  | cons e es ih =>
    have hstep : indexAfterSearch (e :: es) [] = e :: indexAfterSearch es [] := by
      simp [indexAfterSearch, searchEntry_nil_kw]
    rw [hstep, ih]

/-- C8: the result list of a search is sorted ascending by directory name
case-insensitively, and every result included by the file-name rule carries the
matched subset of its source record's files sorted case-insensitively by file
name, with the record's directory metadata — `file_count` included — kept at its
original value. -/
theorem search_results_sorted_spec : ∀ (index : List DirectoryInfo) (keyword : List Char),
    List.Sorted dirKeyLe (handle_search_results index keyword) ∧
    (∀ r ∈ handle_search_results index keyword, ∃ e ∈ index,
      r.path = e.path ∧ r.directory = e.directory ∧
      (r.files = e.files ∨
        (r.files = List.insertionSort fileKeyLe (e.files.filter (fileMatches keyword)) ∧
          List.Sorted fileKeyLe r.files))) := by
  intro index kw
  constructor
  · haveI : IsTotal DirectoryInfo dirKeyLe := ⟨fun a b => lexLe_total _ _⟩
    haveI : IsTrans DirectoryInfo dirKeyLe := ⟨fun _ _ _ h h' => lexLe_trans _ _ _ h h'⟩
    exact List.sorted_insertionSort dirKeyLe _
  · intro r hr
    obtain ⟨e, he, hb, h1⟩ := mem_searchResultsUnsorted.mp (mem_handle_search_results.mp hr)
    subst h1
    rcases searchEntry_cases kw e with ⟨hd, hse⟩ | ⟨hd, hm, hse⟩ | ⟨hd, hm, hse⟩
    · exact ⟨e, he, by rw [hse], by rw [hse], Or.inl (by rw [hse])⟩
    · rw [hse] at hb
      exact absurd hb (by simp)
    · refine ⟨e, he, by rw [hse], by rw [hse], Or.inr ⟨by rw [hse], ?_⟩⟩
      rw [hse]
      haveI : IsTotal FileMeta fileKeyLe := ⟨fun a b => lexLe_total _ _⟩
      haveI : IsTrans FileMeta fileKeyLe := ⟨fun _ _ _ h h' => lexLe_trans _ _ _ h h'⟩
      exact List.sorted_insertionSort fileKeyLe _

/-- C8 (witness): the theorem applied to a two-record index and keyword `txt`,
where the `alpha` record is included by the file-name rule with both files kept
and re-sorted case-insensitively (`a.txt` before `B.txt`). -/
theorem search_results_sorted_spec_witness :
    List.Sorted dirKeyLe (handle_search_results [exC8a, exC8b] (("txt").data)) ∧
    (∃ e ∈ [exC8a, exC8b],
      recC8.path = e.path ∧ recC8.directory = e.directory ∧
      (recC8.files = e.files ∨
        (recC8.files =
            List.insertionSort fileKeyLe (e.files.filter (fileMatches (("txt").data))) ∧
          List.Sorted fileKeyLe recC8.files))) := by
  refine ⟨(search_results_sorted_spec [exC8a, exC8b] (("txt").data)).1, ?_⟩
  exact (search_results_sorted_spec [exC8a, exC8b] (("txt").data)).2 recC8 (by decide)

/-- C9 (counterexample): the claim says a record is included unchanged whenever
the normalized lowercased directory name contains the normalized lowercased
keyword.  For the stored name `Music` and keyword `MUS` that containment holds,
yet the code tests the keyword as given (`"MUS" in "music"` fails) and returns no
result. -/
theorem search_dir_rule_counterexample :
    isSub (pyLower (normalize (("MUS").data))) (pyLower (normalize exC9.directory.name)) =
      true ∧
    handle_search_results [exC9] (("MUS").data) = [] := by decide

/-- C9 (amended): a record is included unchanged (full file list) whenever the
keyword as given occurs in the NFC-normalized lowercased directory name; in
particular the empty keyword occurs in every directory name, so search over any
record list returns every record unchanged (up to the final sort) and leaves the
loaded list untouched. -/
theorem search_dir_rule_spec : ∀ (index : List DirectoryInfo) (keyword : List Char)
    (e : DirectoryInfo),
    (isSub keyword (pyLower (normalize e.directory.name)) = true →
      searchEntry keyword e = (e, true)) ∧
    (handle_search_results index []).Perm index ∧
    indexAfterSearch index [] = index := by
  intro index kw e
  refine ⟨fun hd => by simp [searchEntry, hd], ?_, indexAfterSearch_nil_kw index⟩
  show (List.insertionSort dirKeyLe (searchResultsUnsorted index [])).Perm index
  rw [searchResultsUnsorted_nil_kw]
  exact List.perm_insertionSort dirKeyLe index

/-- C9 (witness): the theorem applied to a `docs` record and keyword `doc`
(directory-name match, record kept unchanged), and to the empty keyword on a
one-record index. -/
theorem search_dir_rule_spec_witness :
    searchEntry (("doc").data) exC9b = (exC9b, true) ∧
    (handle_search_results [exC9b] []).Perm [exC9b] ∧
    indexAfterSearch [exC9b] [] = [exC9b] :=
  ⟨(search_dir_rule_spec [exC9b] (("doc").data) exC9b).1 (by decide),
    (search_dir_rule_spec [exC9b] [] exC9b).2.1,
    (search_dir_rule_spec [exC9b] [] exC9b).2.2⟩

/-- C10: search output is, up to the final sort, the image of a filtered sublist
of the input (each input record contributes at most one output record, none is
invented), every output record keeps its source's path and directory metadata
with files equal to or drawn from the source's files, and the output is never
longer than the input. -/
theorem search_output_derivation_spec : ∀ (index : List DirectoryInfo) (keyword : List Char),
    (handle_search_results index keyword).length ≤ index.length ∧
    (handle_search_results index keyword).Perm
      ((index.filter (fun e => (searchEntry keyword e).2)).map
        (fun e => (searchEntry keyword e).1)) ∧
    (∀ r ∈ handle_search_results index keyword, ∃ e ∈ index,
      r.path = e.path ∧ r.directory = e.directory ∧
      (r.files = e.files ∨ ∀ f ∈ r.files, f ∈ e.files)) := by
  intro index kw
  have hperm := List.perm_insertionSort dirKeyLe (searchResultsUnsorted index kw)
  refine ⟨?_, ?_, ?_⟩
  · show (List.insertionSort dirKeyLe (searchResultsUnsorted index kw)).length ≤ index.length
    rw [hperm.length_eq]
    exact List.length_filterMap_le _ _
  · show (List.insertionSort dirKeyLe (searchResultsUnsorted index kw)).Perm
      ((index.filter (fun e => (searchEntry kw e).2)).map (fun e => (searchEntry kw e).1))
    rw [searchResultsUnsorted_eq]
    exact List.perm_insertionSort dirKeyLe _
  · intro r hr
    obtain ⟨e, he, hb, h1⟩ := mem_searchResultsUnsorted.mp (mem_handle_search_results.mp hr)
    subst h1
    rcases searchEntry_cases kw e with ⟨hd, hse⟩ | ⟨hd, hm, hse⟩ | ⟨hd, hm, hse⟩
    · exact ⟨e, he, by rw [hse], by rw [hse], Or.inl (by rw [hse])⟩
    · rw [hse] at hb
      exact absurd hb (by simp)
    · refine ⟨e, he, by rw [hse], by rw [hse], Or.inr ?_⟩
      intro f hf
      rw [hse] at hf
      have hmem := (List.perm_insertionSort fileKeyLe
        (e.files.filter (fileMatches kw))).mem_iff.mp hf
      exact (List.mem_filter.mp hmem).1

/-- C10 (witness): the theorem applied to a two-record index and keyword `a.t`;
the `Beta` record is included with files drawn from its own file list. -/
theorem search_output_derivation_spec_witness :
    (handle_search_results [exC8a, exC8b] (("a.t").data)).length ≤ 2 ∧
    (∃ e ∈ [exC8a, exC8b],
      exC8a.path = e.path ∧ exC8a.directory = e.directory ∧
      (exC8a.files = e.files ∨ ∀ f ∈ exC8a.files, f ∈ e.files)) := by
  refine ⟨?_, (search_output_derivation_spec [exC8a, exC8b] (("a.t").data)).2.2 exC8a
    (by decide)⟩
  exact (search_output_derivation_spec [exC8a, exC8b] (("a.t").data)).1

end DriveIndex
